import Mathlib

/-!
Verification development for the group-video-chat mesh session orchestrator.

The embedding covers:
* the room-session state machine (xstate machine in the client source:
  states requestingMedia / connecting / connected / disconnected / error /
  left, with the assign-actions addPeer, removePeer, setSpotlight,
  toggleAud, toggleVid, cleanup);
* the per-peer connection controller of the VideoChat component
  (handleAddPeer, handleSessionDescription, handleIceCandidate,
  handleRemovePeer, replaceTrack);
* the signaling relay (join / part / relayICECandidate /
  relaySessionDescription over the channels and sockets registries).

Media tracks, streams, session descriptions and ICE candidates are modelled
as small first-order data.  The underlying RTCPeerConnection platform
primitive is modelled by its observable contract: setRemoteDescription
succeeds exactly on a well-formed description, and addIceCandidate records
the candidate only when a remote description has been set (with no remote
description the returned promise rejects and the candidate is lost; the
caller does not retain it).
-/

/-! ## Shared media data -/

inductive MKind
  | aud
  | vid
deriving DecidableEq, Repr

structure Track where
  tid : String
  kind : MKind
  enabled : Bool
deriving DecidableEq, Repr

/-- A MediaStream is its list of tracks. -/
abbrev MediaStream := List Track

inductive DescType
  | offer
  | answer
deriving DecidableEq, Repr

/-- A session description: its type tag plus whether the platform accepts it
(setRemoteDescription succeeds iff the description is well-formed for the
current negotiation state of the link). -/
structure SDesc where
  dtype : DescType
  valid : Bool
deriving DecidableEq, Repr

/-! ## Association lists

JavaScript objects used as string-keyed maps, with object-key insertion
order: assigning a fresh key appends, assigning an existing key updates in
place, delete removes the key. -/

def lookupA {α : Type} (k : String) : List (String × α) → Option α
  | [] => none
  | (k', v) :: rest => if k = k' then some v else lookupA k rest

def setA {α : Type} (k : String) (v : α) : List (String × α) → List (String × α)
  | [] => [(k, v)]
  | (k', v') :: rest => if k = k' then (k, v) :: rest else (k', v') :: setA k v rest

def removeA {α : Type} (k : String) : List (String × α) → List (String × α)
  | [] => []
  | (k', v') :: rest => if k = k' then rest else (k', v') :: removeA k rest

/-! ## Room state machine (roomMachine in the client source) -/

structure PeerData where
  id : String
  stream : MediaStream
deriving DecidableEq, Repr

structure RoomContext where
  roomId : String
  localStream : Option MediaStream
  peerList : List PeerData
  spotlightPeerId : Option String
  isAudioMuted : Bool
  isVideoMuted : Bool
  error : Option String
deriving DecidableEq, Repr

inductive RoomEvent
  | MEDIA_READY (stream : MediaStream)
  | MEDIA_ERROR (error : String)
  | SOCKET_CONNECTED
  | SOCKET_DISCONNECTED
  | PEER_ADDED (peerId : String) (stream : MediaStream)
  | PEER_REMOVED (peerId : String)
  | SPOTLIGHT (peerId : Option String)
  | TOGGLE_AUD
  | TOGGLE_VID
  | LEAVE
deriving DecidableEq, Repr

inductive RoomState
  | requestingMedia
  | connecting
  | connected
  | disconnected
  | error
  | left
deriving DecidableEq, Repr

/-- Effects on objects owned outside the machine context: cleanup stops the
tracks of the local stream before dropping the reference. -/
inductive RoomEffect
  | stopTracks (s : MediaStream)
deriving DecidableEq, Repr

namespace Room

def setLocalStream (ctx : RoomContext) (stream : MediaStream) : RoomContext :=
  { ctx with localStream := some stream }

def setError (ctx : RoomContext) (msg : String) : RoomContext :=
  { ctx with error := some msg }

def addPeer (ctx : RoomContext) (peerId : String) (stream : MediaStream) : RoomContext :=
  if ctx.peerList.any (fun p => p.id == peerId) then ctx
  else { ctx with peerList := ctx.peerList ++ [⟨peerId, stream⟩] }

def removePeer (ctx : RoomContext) (peerId : String) : RoomContext :=
  { ctx with
      peerList := ctx.peerList.filter (fun p => p.id != peerId),
      spotlightPeerId :=
        if ctx.spotlightPeerId = some peerId then none else ctx.spotlightPeerId }

def setSpotlight (ctx : RoomContext) (peerId : Option String) : RoomContext :=
  { ctx with spotlightPeerId := peerId }

def setTrackEnabled (s : MediaStream) (k : MKind) (en : Bool) : MediaStream :=
  s.map (fun t => if t.kind = k then { t with enabled := en } else t)

def toggleAud (ctx : RoomContext) : RoomContext :=
  let muted := !ctx.isAudioMuted
  { ctx with
      isAudioMuted := muted,
      localStream := ctx.localStream.map (fun s => setTrackEnabled s .aud (!muted)) }

def toggleVid (ctx : RoomContext) : RoomContext :=
  let muted := !ctx.isVideoMuted
  { ctx with
      isVideoMuted := muted,
      localStream := ctx.localStream.map (fun s => setTrackEnabled s .vid (!muted)) }

def cleanup (ctx : RoomContext) : RoomContext :=
  { ctx with
      localStream := none,
      peerList := [],
      spotlightPeerId := none,
      error := none }

/-- The tracks stopped by cleanup (each track of the local stream, none when
the stream reference is already null). -/
def cleanupEffects (ctx : RoomContext) : List RoomEffect :=
  match ctx.localStream with
  | some s => [.stopTracks s]
  | none => []

end Room

structure RoomSnapshot where
  state : RoomState
  context : RoomContext
deriving DecidableEq, Repr

/-- disconnected, error and left are final states: the machine is done and
processes no further events. -/
def RoomState.isFinal : RoomState → Bool
  | .disconnected => true
  | .error => true
  | .left => true
  | _ => false

/-- One step of the room machine.  LEAVE is a machine-level transition
(inherited in every non-final state); each state additionally handles its
own events; unmatched events are ignored. -/
def stepRoom (m : RoomSnapshot) (e : RoomEvent) : RoomSnapshot × List RoomEffect :=
  if m.state.isFinal then (m, [])
  else
    match m.state, e with
    | _, .LEAVE => (⟨.left, Room.cleanup m.context⟩, Room.cleanupEffects m.context)
    | .requestingMedia, .MEDIA_READY s =>
        (⟨.connecting, Room.setLocalStream m.context s⟩, [])
    | .requestingMedia, .MEDIA_ERROR msg =>
        (⟨.error, Room.setError m.context msg⟩, [])
    | .connecting, .SOCKET_CONNECTED => (⟨.connected, m.context⟩, [])
    | .connecting, .SOCKET_DISCONNECTED =>
        (⟨.disconnected, Room.cleanup m.context⟩, Room.cleanupEffects m.context)
    | .connected, .PEER_ADDED pid s => (⟨.connected, Room.addPeer m.context pid s⟩, [])
    | .connected, .PEER_REMOVED pid => (⟨.connected, Room.removePeer m.context pid⟩, [])
    | .connected, .SPOTLIGHT pid => (⟨.connected, Room.setSpotlight m.context pid⟩, [])
    | .connected, .TOGGLE_AUD => (⟨.connected, Room.toggleAud m.context⟩, [])
    | .connected, .TOGGLE_VID => (⟨.connected, Room.toggleVid m.context⟩, [])
    | .connected, .SOCKET_DISCONNECTED =>
        (⟨.disconnected, Room.cleanup m.context⟩, Room.cleanupEffects m.context)
    | s, _ => (⟨s, m.context⟩, [])

def initialContext (roomId : String) : RoomContext :=
  { roomId := roomId
    localStream := none
    peerList := []
    spotlightPeerId := none
    isAudioMuted := false
    isVideoMuted := false
    error := none }

def initialSnapshot (roomId : String) : RoomSnapshot :=
  ⟨.requestingMedia, initialContext roomId⟩

def runRoom (roomId : String) (evts : List RoomEvent) : RoomSnapshot :=
  evts.foldl (fun m e => (stepRoom m e).1) (initialSnapshot roomId)

/-- The spotlight invariant of the spec: the spotlighted identifier is null or
names an entry currently in the peer collection. -/
def spotlightInvariant (m : RoomSnapshot) : Prop :=
  m.context.spotlightPeerId = none ∨
    ∃ p ∈ m.context.peerList, some p.id = m.context.spotlightPeerId

instance (m : RoomSnapshot) : Decidable (spotlightInvariant m) := by
  unfold spotlightInvariant
  infer_instance

/-! ## Signaling relay (initSignaling in the server source) -/

/-- Messages the relay emits to client sockets. -/
inductive ServerMsg
  | addPeer (peer_id : String) (should_create_offer : Bool)
  | removePeer (peer_id : String)
  | sessionDescription (peer_id : String) (session_description : SDesc)
  | iceCandidate (peer_id : String) (ice_candidate : String)
deriving DecidableEq, Repr

/-- An emission: target socket id paired with the message sent to it. -/
abbrev Emit := String × ServerMsg

/-- The registries of the relay: channels maps a channel name to its membership
(member socket ids, in join order), socketChannels is the per-socket
channels object, sockets is the global member table. -/
structure RelayState where
  channels : List (String × List String)
  socketChannels : List (String × List String)
  sockets : List String
deriving DecidableEq, Repr

namespace Relay

/-- A new connection: socket.channels is initialised empty and the socket is
entered into the global table. -/
def connect (st : RelayState) (sid : String) : RelayState :=
  { st with
      socketChannels := setA sid [] st.socketChannels,
      sockets := st.sockets ++ [sid] }

/-- The join handler.  A join for a channel the socket has already joined is
rejected (logged, no effect).  Otherwise the channel entry is created if
absent, every existing member M is sent addPeer(joiner, false) and the
joiner is sent addPeer(M, true), and only then is the joiner recorded in
the membership of the channel and in the channels object of the socket. -/
def join (st : RelayState) (sid : String) (channel : String) : RelayState × List Emit :=
  let sch := (lookupA sid st.socketChannels).getD []
  if channel ∈ sch then (st, [])
  else
    let members := (lookupA channel st.channels).getD []
    let emits := members.flatMap (fun id =>
      [(id, ServerMsg.addPeer sid false), (sid, ServerMsg.addPeer id true)])
    ({ st with
        channels := setA channel (members ++ [sid]) st.channels,
        socketChannels := setA sid (sch ++ [channel]) st.socketChannels },
     emits)

/-- The part handler.  Leaving a channel the socket has not joined is
rejected (logged, no effect).  Otherwise the socket is deleted from the
membership of the channel and from the channels object of the socket, and removePeer is
fanned out both ways for every remaining member.  The registry
entry itself is not deleted. -/
def part (st : RelayState) (sid : String) (channel : String) : RelayState × List Emit :=
  let sch := (lookupA sid st.socketChannels).getD []
  if channel ∈ sch then
    let remaining := ((lookupA channel st.channels).getD []).filter (fun id => id != sid)
    let emits := remaining.flatMap (fun id =>
      [(id, ServerMsg.removePeer sid), (sid, ServerMsg.removePeer id)])
    ({ st with
        channels := setA channel remaining st.channels,
        socketChannels := setA sid (sch.filter (fun c => c != channel)) st.socketChannels },
     emits)
  else (st, [])

/-- Candidate relay: looked up in the global member table; an absent target
is silently dropped. -/
def relayICECandidate (st : RelayState) (sid : String) (peer_id : String)
    (ice_candidate : String) : List Emit :=
  if peer_id ∈ st.sockets then [(peer_id, .iceCandidate sid ice_candidate)] else []

/-- Description relay: looked up in the global member table; an absent
target is silently dropped. -/
def relaySessionDescription (st : RelayState) (sid : String) (peer_id : String)
    (session_description : SDesc) : List Emit :=
  if peer_id ∈ st.sockets then [(peer_id, .sessionDescription sid session_description)]
  else []

/-- Disconnect: part every channel in the channels object of the socket, then
delete the socket from the global table. -/
def disconnect (st : RelayState) (sid : String) : RelayState × List Emit :=
  let sch := (lookupA sid st.socketChannels).getD []
  let r := sch.foldl
    (fun (acc : RelayState × List Emit) ch =>
      let r' := part acc.1 sid ch
      (r'.1, acc.2 ++ r'.2))
    (st, [])
  ({ r.1 with sockets := r.1.sockets.filter (fun s => s != sid) }, r.2)

end Relay

/-! ## Connection controller (VideoChat component in the client source) -/

/-- An RTCRtpSender: holds the outbound track it currently transmits. -/
structure Sender where
  track : Option Track
deriving DecidableEq, Repr

/-- One peer link: the observable negotiation state of the platform connection.
remoteDescSet records whether setRemoteDescription has succeeded;
appliedCandidates are the candidates addIceCandidate has accepted (it
rejects, losing the candidate, while no remote description is set);
senders are the outbound senders created by addTrack. -/
structure PeerConnection where
  remoteDescSet : Bool
  appliedCandidates : List String
  localDesc : Option SDesc
  senders : List Sender
  closed : Bool
deriving DecidableEq, Repr

/-- Messages the client emits to the relay. -/
inductive ClientMsg
  | relaySessionDescription (peer_id : String) (session_description : SDesc)
  | relayICECandidate (peer_id : String) (ice_candidate : String)
deriving DecidableEq, Repr

/-- The connection-relevant state of the VideoChat component: the peersRef table,
the local stream, the two mute flags and the source of the local preview
source. -/
structure ClientState where
  peers : List (String × PeerConnection)
  localStream : Option MediaStream
  isAudioMuted : Bool
  isVideoMuted : Bool
  preview : Option MediaStream
deriving DecidableEq, Repr

namespace Client

/-- handleAddPeer: a duplicate identifier returns immediately; otherwise a
fresh connection is created, one sender is added per local track, and if
should_create_offer an offer is generated, set locally and relayed. -/
def handleAddPeer (st : ClientState) (peer_id : String) (should_create_offer : Bool) :
    ClientState × List ClientMsg :=
  if (lookupA peer_id st.peers).isSome then (st, [])
  else
    let senders : List Sender :=
      match st.localStream with
      | some s => s.map (fun t => ⟨some t⟩)
      | none => []
    let pc : PeerConnection :=
      { remoteDescSet := false
        appliedCandidates := []
        localDesc := if should_create_offer then some ⟨.offer, true⟩ else none
        senders := senders
        closed := false }
    ({ st with peers := setA peer_id pc st.peers },
     if should_create_offer then [.relaySessionDescription peer_id ⟨.offer, true⟩]
     else [])

/-- handleSessionDescription: unknown peers are ignored.  For a known peer,
setRemoteDescription is attempted: on failure the error is caught and
logged and nothing else happens; on success the remote description is
recorded and, when it was an offer, an answer is created, set locally and
relayed. -/
def handleSessionDescription (st : ClientState) (peer_id : String) (d : SDesc) :
    ClientState × List ClientMsg :=
  match lookupA peer_id st.peers with
  | none => (st, [])
  | some pc =>
    if d.valid then
      let pc' := { pc with remoteDescSet := true }
      if d.dtype = .offer then
        ({ st with peers := setA peer_id { pc' with localDesc := some ⟨.answer, true⟩ } st.peers },
         [.relaySessionDescription peer_id ⟨.answer, true⟩])
      else
        ({ st with peers := setA peer_id pc' st.peers }, [])
    else (st, [])

/-- handleIceCandidate: unknown peers are ignored; for a known peer the
candidate is handed straight to addIceCandidate.  There is no local queue:
if no remote description has been set the platform call rejects and the
candidate is lost (the state is unchanged). -/
def handleIceCandidate (st : ClientState) (peer_id : String) (c : String) : ClientState :=
  match lookupA peer_id st.peers with
  | none => st
  | some pc =>
    if pc.remoteDescSet then
      { st with peers := setA peer_id { pc with appliedCandidates := pc.appliedCandidates ++ [c] } st.peers }
    else st

/-- handleRemovePeer: close the connection (if present) and delete its
entry. -/
def handleRemovePeer (st : ClientState) (peer_id : String) : ClientState :=
  { st with peers := removeA peer_id st.peers }

/-- The first track of the given kind is removed from the stream
(getAudioTracks()[0] / getVideoTracks()[0] followed by removeTrack); if no
track of the kind exists the stream is unchanged. -/
def removeFirstOfKind : MediaStream → MKind → MediaStream
  | [], _ => []
  | t :: rest, k => if t.kind = k then rest else t :: removeFirstOfKind rest k

/-- senders.find(s => s.track?.kind === kind) followed by
sender.replaceTrack(newTrack): the first sender currently transmitting a
track of the kind gets the new track; all other senders are untouched; if
no sender matches nothing happens. -/
def replaceFirstSenderOfKind : List Sender → MKind → Track → List Sender
  | [], _, _ => []
  | s :: rest, k, nt =>
    match s.track with
    | some t =>
      if t.kind = k then { s with track := some nt } :: rest
      else s :: replaceFirstSenderOfKind rest k nt
    | none => s :: replaceFirstSenderOfKind rest k nt

/-- Does the sender list hold a sender currently transmitting a track of
the kind? -/
def hasSenderOfKind (l : List Sender) (k : MKind) : Bool :=
  l.any (fun s =>
    match s.track with
    | some t => t.kind == k
    | none => false)

/-- The track a device swap substitutes: the fresh track getUserMedia
returns for a deviceId constraint of the kind, with its enabled flag set
from the current session mute flag for that kind (newTrack.enabled =
!isAudioMuted / !isVideoMuted). -/
def newTrackFor (st : ClientState) (kind : MKind) (newTrackId : String) : Track :=
  ⟨newTrackId, kind, if kind = .aud then !st.isAudioMuted else !st.isVideoMuted⟩

/-- replaceTrack: a no-op without a local stream.  getUserMedia with a
deviceId constraint of the requested kind yields a fresh track of that
kind (newTrackId names it); the old track of the kind is removed from the
local stream and stopped, the new track is added, its enabled flag is set
from the session mute flag for the kind, the local preview is re-pointed
at the stream for a video swap, and on every peer connection the first
sender of the kind has its track replaced in place.  No signaling message
is emitted: there is no renegotiation. -/
def replaceTrack (st : ClientState) (kind : MKind) (newTrackId : String) :
    ClientState × List ClientMsg :=
  match st.localStream with
  | none => (st, [])
  | some stream =>
    let nt : Track := newTrackFor st kind newTrackId
    let stream1 := removeFirstOfKind stream kind ++ [nt]
    ({ st with
        localStream := some stream1,
        preview := if kind = .vid then some stream1 else st.preview,
        peers := st.peers.map
          (fun p => (p.1, { p.2 with senders := replaceFirstSenderOfKind p.2.senders kind nt })) },
     [])

end Client

/-! ## Concrete states used by witnesses and counterexamples -/

/-- Two connected sockets, neither in any room. -/
def relayTwoSockets : RelayState :=
  ⟨[], [("a", []), ("b", [])], ["a", "b"]⟩

/-- Socket a is the sole member of room r1. -/
def relayOneRoom : RelayState :=
  ⟨[("r1", ["a"])], [("a", ["r1"])], ["a"]⟩

/-- Socket a in room r1, socket b connected but roomless. -/
def relayOneRoomPlus : RelayState :=
  ⟨[("r1", ["a"])], [("a", ["r1"]), ("b", [])], ["a", "b"]⟩

/-- One connected socket, no rooms. -/
def relayOneSocket : RelayState :=
  ⟨[], [("a", [])], ["a"]⟩

def trackA : Track := ⟨"a0", .aud, true⟩

def trackV : Track := ⟨"v0", .vid, true⟩

/-- A link still negotiating: no remote description, nothing applied. -/
def pcNegotiating : PeerConnection :=
  ⟨false, [], none, [], false⟩

/-- A connected link with one audio and one video sender. -/
def pcWithSenders : PeerConnection :=
  ⟨true, [], none, [⟨some trackA⟩, ⟨some trackV⟩], false⟩

/-- A client that just acquired local media, before any peers. -/
def clientFresh : ClientState :=
  ⟨[], some [trackA, trackV], false, false, none⟩

/-- A client with two links mid-negotiation. -/
def clientTwoLinks : ClientState :=
  ⟨[("b", pcNegotiating), ("c", pcNegotiating)], some [], false, false, none⟩

/-- A video-muted client with one established link. -/
def clientVideoMuted : ClientState :=
  ⟨[("b", pcWithSenders)], some [trackA, trackV], false, true, none⟩

/-- A client whose link table already holds peer b. -/
def clientHasB : ClientState :=
  ⟨[("b", pcNegotiating)], none, false, false, none⟩

/-! ## Helper lemmas -/

theorem lookupA_setA_self {α : Type} (k : String) (v : α) (l : List (String × α)) :
    lookupA k (setA k v l) = some v := by
  induction l with
  | nil => simp [setA, lookupA]
  | cons hd tl ih =>
    obtain ⟨k', v'⟩ := hd
    by_cases h : k = k' <;> simp [setA, lookupA, h, ih]

/-- The identifiers currently in the peer collection of the room session. -/
def peerIds (ctx : RoomContext) : List String :=
  ctx.peerList.map PeerData.id

theorem peerIds_addPeer_nodup (ctx : RoomContext) (pid : String) (s : MediaStream)
    (h : (peerIds ctx).Nodup) : (peerIds (Room.addPeer ctx pid s)).Nodup := by
  unfold Room.addPeer
  by_cases hc : (ctx.peerList.any fun p => p.id == pid) = true
  · simpa [hc] using h
  · rw [if_neg hc]
    have hni : pid ∉ peerIds ctx := by
      intro hmem
      obtain ⟨p, hp, hpid⟩ := List.mem_map.mp hmem
      exact hc (List.any_eq_true.mpr ⟨p, hp, by simp [hpid]⟩)
    have : peerIds { ctx with peerList := ctx.peerList ++ [⟨pid, s⟩] }
        = (peerIds ctx).concat pid := by
      simp [peerIds]
    rw [this]
    exact h.concat hni

theorem peerIds_removePeer_nodup (ctx : RoomContext) (pid : String)
    (h : (peerIds ctx).Nodup) : (peerIds (Room.removePeer ctx pid)).Nodup := by
  have hs : List.Sublist (peerIds (Room.removePeer ctx pid)) (peerIds ctx) :=
    (List.filter_sublist _).map PeerData.id
  exact h.sublist hs

theorem stepRoom_peerIds_nodup (m : RoomSnapshot) (e : RoomEvent)
    (h : (peerIds m.context).Nodup) : (peerIds (stepRoom m e).1.context).Nodup := by
  obtain ⟨st, ctx⟩ := m
  by_cases hf : st.isFinal = true
  · simpa [stepRoom, hf] using h
  · cases st <;> cases e <;>
      simp_all [stepRoom, RoomState.isFinal, peerIds, Room.cleanup, Room.setLocalStream,
        Room.setError, Room.setSpotlight, Room.toggleAud, Room.toggleVid] <;>
      first
        | exact peerIds_addPeer_nodup ctx _ _ h
        | exact peerIds_removePeer_nodup ctx _ h

theorem runRoom_peerIds_nodup (rid : String) (evts : List RoomEvent) :
    (peerIds (runRoom rid evts).context).Nodup := by
  have general : ∀ (l : List RoomEvent) (m : RoomSnapshot), (peerIds m.context).Nodup →
      (peerIds (l.foldl (fun m e => (stepRoom m e).1) m).context).Nodup := by
    intro l
    induction l with
    | nil => intro m h; exact h
    | cons e rest ih =>
      intro m h
      exact ih _ (stepRoom_peerIds_nodup m e h)
  exact general evts (initialSnapshot rid) (by simp [initialSnapshot, initialContext, peerIds])

/-! ## Claims -/

/-- C5: a leave request is accepted from every non-terminal room-session
state (requestingMedia, connecting, connected) and runs the full cleanup —
the local media source is stopped (its tracks stop-effect is emitted) and
set to null, the peer collection is emptied, the spotlight is cleared and
the transient error is cleared — before the terminal left state is
entered; the terminal states disconnected, error and left accept no leave
(the machine is final and the event has no effect). -/
theorem leave_runs_full_cleanup_from_every_nonterminal_state (ctx : RoomContext) :
    (Room.cleanup ctx).localStream = none ∧
    (Room.cleanup ctx).peerList = [] ∧
    (Room.cleanup ctx).spotlightPeerId = none ∧
    (Room.cleanup ctx).error = none ∧
    Room.cleanupEffects ctx = ctx.localStream.toList.map RoomEffect.stopTracks ∧
    stepRoom ⟨.requestingMedia, ctx⟩ .LEAVE = (⟨.left, Room.cleanup ctx⟩, Room.cleanupEffects ctx) ∧
    stepRoom ⟨.connecting, ctx⟩ .LEAVE = (⟨.left, Room.cleanup ctx⟩, Room.cleanupEffects ctx) ∧
    stepRoom ⟨.connected, ctx⟩ .LEAVE = (⟨.left, Room.cleanup ctx⟩, Room.cleanupEffects ctx) ∧
    stepRoom ⟨.disconnected, ctx⟩ .LEAVE = (⟨.disconnected, ctx⟩, []) ∧
    stepRoom ⟨.error, ctx⟩ .LEAVE = (⟨.error, ctx⟩, []) ∧
    stepRoom ⟨.left, ctx⟩ .LEAVE = (⟨.left, ctx⟩, []) := by
  refine ⟨rfl, rfl, rfl, rfl, ?_, rfl, rfl, rfl, rfl, rfl, rfl⟩
  cases h : ctx.localStream <;> simp [Room.cleanupEffects, h]

/-- C7 counterexample: the spotlight invariant does not hold in every
reachable state.  After acquiring media, connecting, and receiving a
SPOTLIGHT event naming x while the peer collection is empty, the session
spotlights x although no entry x exists — the SPOTLIGHT action stores any
identifier without validation. -/
theorem spotlight_can_reference_nonexistent_peer :
    ¬ spotlightInvariant (runRoom "r" [.MEDIA_READY [], .SOCKET_CONNECTED, .SPOTLIGHT (some "x")]) := by
  decide

/-- C7 amended: the second half of the claim holds — removing the peer
that is currently spotlighted resets the spotlight to null: after a
PEER_REMOVED event for pid in the connected state, the spotlight does not
reference pid and no collection entry with identifier pid remains.  (The
first half fails: a SPOTLIGHT event stores its identifier unvalidated, so
the spotlight can name a nonexistent peer; see the counterexample.) -/
theorem removing_spotlighted_peer_clears_spotlight (ctx : RoomContext) (pid : String) :
    ((stepRoom ⟨.connected, ctx⟩ (.PEER_REMOVED pid)).1.context.spotlightPeerId ≠ some pid) ∧
    ∀ p ∈ (stepRoom ⟨.connected, ctx⟩ (.PEER_REMOVED pid)).1.context.peerList, p.id ≠ pid := by
  constructor
  · show (Room.removePeer ctx pid).spotlightPeerId ≠ some pid
    unfold Room.removePeer
    by_cases h : ctx.spotlightPeerId = some pid <;> simp [h]
  · intro p hp
    have hmem : p ∈ ctx.peerList.filter (fun p => p.id != pid) := hp
    have := List.of_mem_filter hmem
    simpa using this

/-- C10: a part request naming a channel the requesting socket has not
joined is a complete no-op at the relay: the state (room registry, every
channel set of every socket, member table) is returned unchanged and no
removePeer event is emitted to anyone. -/
theorem part_of_unjoined_channel_is_noop (st : RelayState) (sid channel : String)
    (h : channel ∉ (lookupA sid st.socketChannels).getD []) :
    Relay.part st sid channel = (st, []) := by
  simp [Relay.part, h]

theorem part_of_unjoined_channel_is_noop_witness :
    "r9" ∉ (lookupA "a" relayOneRoom.socketChannels).getD [] ∧
    Relay.part relayOneRoom "a" "r9" = (relayOneRoom, []) :=
  ⟨by decide, part_of_unjoined_channel_is_noop relayOneRoom "a" "r9" (by decide)⟩

/-- C2 counterexample: the at-most-one-room invariant does not hold.  With
sockets a and b connected, b joins r2, a joins r1, and then a joins r2:
the second join by a is accepted, the membership of a is added to r2 while it
is still a member of r1, and discovery events are emitted — it is not
rejected as a protocol error. -/
theorem member_can_join_second_room :
    "a" ∈ (lookupA "r1" (Relay.join (Relay.join (Relay.join relayTwoSockets "b" "r2").1 "a" "r1").1 "a" "r2").1.channels).getD [] ∧
    "a" ∈ (lookupA "r2" (Relay.join (Relay.join (Relay.join relayTwoSockets "b" "r2").1 "a" "r1").1 "a" "r2").1.channels).getD [] ∧
    (Relay.join (Relay.join (Relay.join relayTwoSockets "b" "r2").1 "a" "r1").1 "a" "r2").2 ≠ [] := by
  decide

/-- C2 amended: the rejection the relay actually implements is per
channel, not global — a join request for a channel the socket has already
joined is rejected as a protocol error (state unchanged, no discovery
events), while a join for a second, different room is accepted, so a
member identifier may appear in the membership maps of several rooms at once. -/
theorem duplicate_join_of_same_room_rejected (st : RelayState) (sid channel : String)
    (h : channel ∈ (lookupA sid st.socketChannels).getD []) :
    Relay.join st sid channel = (st, []) := by
  simp [Relay.join, h]

theorem duplicate_join_of_same_room_rejected_witness :
    "r1" ∈ (lookupA "a" relayOneRoom.socketChannels).getD [] ∧
    Relay.join relayOneRoom "a" "r1" = (relayOneRoom, []) :=
  ⟨by decide, duplicate_join_of_same_room_rejected relayOneRoom "a" "r1" (by decide)⟩

/-- C3: for a join of a channel the socket has not already joined, the
emitted discovery events are exactly, for each existing member M (in
membership order), addPeer naming the joiner with should_create_offer
false sent to M, and addPeer naming M with should_create_offer true sent
to the joiner; they are computed from the membership as it was before the
join (the joiner is appended to the registry only afterwards, so the
fan-out never includes the joiner itself); and when the room was empty no
discovery event is emitted. -/
theorem join_discovery_fanout (st : RelayState) (sid channel : String)
    (h : channel ∉ (lookupA sid st.socketChannels).getD []) :
    (Relay.join st sid channel).2
      = ((lookupA channel st.channels).getD []).flatMap
          (fun id => [(id, ServerMsg.addPeer sid false), (sid, ServerMsg.addPeer id true)]) ∧
    lookupA channel (Relay.join st sid channel).1.channels
      = some ((lookupA channel st.channels).getD [] ++ [sid]) ∧
    ((lookupA channel st.channels).getD [] = [] → (Relay.join st sid channel).2 = []) := by
  refine ⟨?_, ?_, ?_⟩
  · simp [Relay.join, h]
  · simp [Relay.join, h, lookupA_setA_self]
  · intro he
    simp [Relay.join, h, he]

theorem join_discovery_fanout_witness :
    "r1" ∉ (lookupA "b" relayOneRoomPlus.socketChannels).getD [] ∧
    ((Relay.join relayOneRoomPlus "b" "r1").2
      = ((lookupA "r1" relayOneRoomPlus.channels).getD []).flatMap
          (fun id => [(id, ServerMsg.addPeer "b" false), ("b", ServerMsg.addPeer id true)]) ∧
    lookupA "r1" (Relay.join relayOneRoomPlus "b" "r1").1.channels
      = some ((lookupA "r1" relayOneRoomPlus.channels).getD [] ++ ["b"]) ∧
    ((lookupA "r1" relayOneRoomPlus.channels).getD [] = []
      → (Relay.join relayOneRoomPlus "b" "r1").2 = [])) :=
  ⟨by decide, join_discovery_fanout relayOneRoomPlus "b" "r1" (by decide)⟩

/-- C8 counterexample: a room is NOT destroyed when it becomes empty.
Starting from one connected socket, a joins r and then parts r: after the
last member has left, the registry still holds an entry for r (with an
empty membership map) — the part handler never deletes the channel
entry. -/
theorem empty_room_entry_persists :
    lookupA "r" (Relay.part (Relay.join relayOneSocket "a" "r").1 "a" "r").1.channels = some [] ∧
    lookupA "r" (Relay.part (Relay.join relayOneSocket "a" "r").1 "a" "r").1.channels ≠ none := by
  decide

/-- C8 amended: a room is created in the registry on the first join naming
it; when its last member parts, the membership map becomes empty but the
registry entry for the room name is not removed (it persists with an
empty membership). -/
theorem room_created_on_first_join_never_deleted (st : RelayState) (sid channel : String)
    (h1 : channel ∉ (lookupA sid st.socketChannels).getD [])
    (h2 : lookupA channel st.channels = none) :
    lookupA channel (Relay.join st sid channel).1.channels = some [sid] ∧
    lookupA channel (Relay.part (Relay.join st sid channel).1 sid channel).1.channels
      = some [] := by
  constructor
  · simp [Relay.join, h1, h2, lookupA_setA_self]
  · simp [Relay.join, Relay.part, h1, h2, lookupA_setA_self]

theorem room_created_on_first_join_never_deleted_witness :
    ("r" ∉ (lookupA "a" relayOneSocket.socketChannels).getD [] ∧
      lookupA "r" relayOneSocket.channels = none) ∧
    (lookupA "r" (Relay.join relayOneSocket "a" "r").1.channels = some ["a"] ∧
    lookupA "r" (Relay.part (Relay.join relayOneSocket "a" "r").1 "a" "r").1.channels
      = some []) :=
  ⟨⟨by decide, by decide⟩,
    room_created_on_first_join_never_deleted relayOneSocket "a" "r" (by decide) (by decide)⟩

/-- C4 counterexample: a malformed / unexpected-role remote description
does NOT tear the link down.  With links to b and c negotiating, an
invalid description for b is caught and logged: the whole client state is
unchanged, the link for b is still in the table and not closed, and nothing is
emitted — the link is neither closed nor reported as a removed peer. -/
theorem bad_description_does_not_tear_down_link :
    (Client.handleSessionDescription clientTwoLinks "b" ⟨.offer, false⟩).1 = clientTwoLinks ∧
    lookupA "b" (Client.handleSessionDescription clientTwoLinks "b" ⟨.offer, false⟩).1.peers
      = some pcNegotiating ∧
    pcNegotiating.closed = false ∧
    (Client.handleSessionDescription clientTwoLinks "b" ⟨.offer, false⟩).2 = [] := by
  decide

/-- C4 amended: when setRemoteDescription rejects a malformed or
unexpected-role description for a known link, the error is caught and
only logged: the controller state is returned unchanged (the link stays
in the table, is not closed, and every other link is untouched) and no
message is sent — there is no teardown and no removed-peer report. -/
theorem bad_description_caught_and_logged (st : ClientState) (peer_id : String) (d : SDesc)
    (pc : PeerConnection) (h1 : lookupA peer_id st.peers = some pc) (h2 : d.valid = false) :
    Client.handleSessionDescription st peer_id d = (st, []) := by
  simp [Client.handleSessionDescription, h1, h2]

theorem bad_description_caught_and_logged_witness :
    (lookupA "b" clientTwoLinks.peers = some pcNegotiating ∧
      (⟨.offer, false⟩ : SDesc).valid = false) ∧
    Client.handleSessionDescription clientTwoLinks "b" ⟨.offer, false⟩ = (clientTwoLinks, []) :=
  ⟨⟨by decide, by decide⟩,
    bad_description_caught_and_logged clientTwoLinks "b" ⟨.offer, false⟩ pcNegotiating
      (by decide) (by decide)⟩

/-- C1 (code bug): a candidate received before the remote description is
set is NOT queued — it is handed straight to addIceCandidate, which
rejects while no remote description is set, and the candidate is lost.
Concretely: after addPeer for b (answerer role), the link for b has no remote
description; a candidate for b then leaves the state completely unchanged
(nothing records it); when the offer from b later arrives and the remote
description is set, the applied candidates of the link are still empty — the
candidate was dropped, not buffered and applied. -/
theorem early_candidate_dropped_not_buffered :
    (lookupA "b" (Client.handleAddPeer clientFresh "b" false).1.peers).map
        PeerConnection.remoteDescSet = some false ∧
    Client.handleIceCandidate (Client.handleAddPeer clientFresh "b" false).1 "b" "cand1"
      = (Client.handleAddPeer clientFresh "b" false).1 ∧
    (lookupA "b" (Client.handleSessionDescription
        (Client.handleIceCandidate (Client.handleAddPeer clientFresh "b" false).1 "b" "cand1")
        "b" ⟨.offer, true⟩).1.peers).map PeerConnection.remoteDescSet = some true ∧
    (lookupA "b" (Client.handleSessionDescription
        (Client.handleIceCandidate (Client.handleAddPeer clientFresh "b" false).1 "b" "cand1")
        "b" ⟨.offer, true⟩).1.peers).map PeerConnection.appliedCandidates = some [] := by
  decide

/-- If some sender currently transmits a track of the kind, then after the
first-matching-sender replacement some sender transmits the new track. -/
theorem replaceFirstSenderOfKind_sends (l : List Sender) (k : MKind) (nt : Track)
    (h : Client.hasSenderOfKind l k = true) :
    ∃ s ∈ Client.replaceFirstSenderOfKind l k nt, s.track = some nt := by
  induction l with
  | nil => simp [Client.hasSenderOfKind] at h
  | cons hd tl ih =>
    cases htr : hd.track with
    | none =>
      have h' : Client.hasSenderOfKind tl k = true := by
        simpa [Client.hasSenderOfKind, htr] using h
      obtain ⟨s, hs, hts⟩ := ih h'
      exact ⟨s, by simp [Client.replaceFirstSenderOfKind, htr, hs], hts⟩
    | some t =>
      by_cases hk : t.kind = k
      · refine ⟨{ hd with track := some nt }, ?_, rfl⟩
        simp [Client.replaceFirstSenderOfKind, htr, hk]
      · have h' : Client.hasSenderOfKind tl k = true := by
          simpa [Client.hasSenderOfKind, htr, hk] using h
        obtain ⟨s, hs, hts⟩ := ih h'
        exact ⟨s, by simp [Client.replaceFirstSenderOfKind, htr, hk, hs], hts⟩

/-- C6: peer-added is an idempotent upsert per identifier, at both levels.
For any event trace of the room machine whose resulting peer collection
already contains pid, a further PEER_ADDED for pid leaves the collection
unchanged and the collection holds exactly one entry for pid (reachable
collections never hold duplicate identifiers); and for any controller
state whose link table already contains pid, a further addPeer event is a
no-op (the table — indeed the whole state — is unchanged and nothing is
emitted). -/
theorem peer_added_is_idempotent_upsert (rid : String) (evts : List RoomEvent) (pid : String)
    (s : MediaStream) (cst : ClientState) (b : Bool)
    (h1 : pid ∈ peerIds (runRoom rid evts).context)
    (h2 : (lookupA pid cst.peers).isSome = true) :
    (stepRoom (runRoom rid evts) (.PEER_ADDED pid s)).1.context.peerList
      = (runRoom rid evts).context.peerList ∧
    (peerIds (runRoom rid evts).context).count pid = 1 ∧
    Client.handleAddPeer cst pid b = (cst, []) := by
  have hnodup := runRoom_peerIds_nodup rid evts
  refine ⟨?_, List.count_eq_one_of_mem hnodup h1, by simp [Client.handleAddPeer, h2]⟩
  generalize hgen : runRoom rid evts = m at h1 ⊢
  obtain ⟨st, ctx⟩ := m
  obtain ⟨p, hp, hpid⟩ := List.mem_map.mp h1
  have hany : (ctx.peerList.any fun q => q.id == pid) = true :=
    List.any_eq_true.mpr ⟨p, hp, by simp [hpid]⟩
  cases st <;> simp [stepRoom, RoomState.isFinal, Room.addPeer, hany]

theorem peer_added_is_idempotent_upsert_witness :
    ("b" ∈ peerIds (runRoom "r"
        [.MEDIA_READY [], .SOCKET_CONNECTED, .PEER_ADDED "b" []]).context ∧
      (lookupA "b" clientHasB.peers).isSome = true) ∧
    ((stepRoom (runRoom "r" [.MEDIA_READY [], .SOCKET_CONNECTED, .PEER_ADDED "b" []])
        (.PEER_ADDED "b" [])).1.context.peerList
      = (runRoom "r" [.MEDIA_READY [], .SOCKET_CONNECTED, .PEER_ADDED "b" []]).context.peerList ∧
    (peerIds (runRoom "r" [.MEDIA_READY [], .SOCKET_CONNECTED, .PEER_ADDED "b" []]).context).count "b" = 1 ∧
    Client.handleAddPeer clientHasB "b" true = (clientHasB, [])) :=
  ⟨⟨by decide, by decide⟩,
    peer_added_is_idempotent_upsert "r" [.MEDIA_READY [], .SOCKET_CONNECTED, .PEER_ADDED "b" []]
      "b" [] clientHasB true (by decide) (by decide)⟩

/-- C9: a device swap for one kind emits no signaling message (no
renegotiation); the substituted track carries the current session mute
flag for that kind, so a swap while muted stays muted; the local stream —
and for a video swap the local preview — now holds the substituted track;
the link table keeps exactly its identifiers; and every link that had an
outbound sender of the kind now has a sender transmitting the substituted
track. -/
theorem device_swap_replaces_track_on_all_links (st : ClientState) (kind : MKind)
    (tid : String) (stream : MediaStream) (h : st.localStream = some stream) :
    (Client.replaceTrack st kind tid).2 = [] ∧
    (Client.newTrackFor st kind tid).enabled
      = !(if kind = MKind.aud then st.isAudioMuted else st.isVideoMuted) ∧
    (Client.replaceTrack st kind tid).1.localStream
      = some (Client.removeFirstOfKind stream kind ++ [Client.newTrackFor st kind tid]) ∧
    (kind = .vid → (Client.replaceTrack st kind tid).1.preview
      = (Client.replaceTrack st kind tid).1.localStream) ∧
    (Client.replaceTrack st kind tid).1.peers.map Prod.fst = st.peers.map Prod.fst ∧
    ∀ pr ∈ st.peers, Client.hasSenderOfKind pr.2.senders kind = true →
      ∃ qr ∈ (Client.replaceTrack st kind tid).1.peers, qr.1 = pr.1 ∧
        ∃ sd ∈ qr.2.senders, sd.track = some (Client.newTrackFor st kind tid) := by
  refine ⟨by simp [Client.replaceTrack, h], by cases kind <;> simp [Client.newTrackFor],
    by simp [Client.replaceTrack, h], ?_, ?_, ?_⟩
  · intro hk
    simp [Client.replaceTrack, h, hk]
  · simp [Client.replaceTrack, h, List.map_map]
  · intro pr hpr hks
    refine ⟨(pr.1, { pr.2 with senders :=
        Client.replaceFirstSenderOfKind pr.2.senders kind (Client.newTrackFor st kind tid) }),
      ?_, rfl, replaceFirstSenderOfKind_sends _ _ _ hks⟩
    simp only [Client.replaceTrack, h]
    exact List.mem_map_of_mem _ hpr

theorem device_swap_replaces_track_on_all_links_witness :
    clientVideoMuted.localStream = some [trackA, trackV] ∧
    ((Client.replaceTrack clientVideoMuted .vid "v1").2 = [] ∧
    (Client.newTrackFor clientVideoMuted .vid "v1").enabled
      = !(if MKind.vid = MKind.aud then clientVideoMuted.isAudioMuted
          else clientVideoMuted.isVideoMuted) ∧
    (Client.replaceTrack clientVideoMuted .vid "v1").1.localStream
      = some (Client.removeFirstOfKind [trackA, trackV] .vid
          ++ [Client.newTrackFor clientVideoMuted .vid "v1"]) ∧
    (MKind.vid = .vid → (Client.replaceTrack clientVideoMuted .vid "v1").1.preview
      = (Client.replaceTrack clientVideoMuted .vid "v1").1.localStream) ∧
    (Client.replaceTrack clientVideoMuted .vid "v1").1.peers.map Prod.fst
      = clientVideoMuted.peers.map Prod.fst ∧
    ∀ pr ∈ clientVideoMuted.peers, Client.hasSenderOfKind pr.2.senders .vid = true →
      ∃ qr ∈ (Client.replaceTrack clientVideoMuted .vid "v1").1.peers, qr.1 = pr.1 ∧
        ∃ sd ∈ qr.2.senders,
          sd.track = some (Client.newTrackFor clientVideoMuted .vid "v1")) :=
  ⟨by decide,
    device_swap_replaces_track_on_all_links clientVideoMuted .vid "v1" [trackA, trackV]
      (by decide)⟩

theorem removing_spotlighted_peer_clears_spotlight_witness :
    ((stepRoom ⟨.connected, ⟨"r", none, [⟨"b", []⟩, ⟨"c", []⟩], some "b", false, false, none⟩⟩
        (.PEER_REMOVED "b")).1.context.spotlightPeerId ≠ some "b") ∧
    ∀ p ∈ (stepRoom ⟨.connected, ⟨"r", none, [⟨"b", []⟩, ⟨"c", []⟩], some "b", false, false, none⟩⟩
        (.PEER_REMOVED "b")).1.context.peerList, p.id ≠ "b" :=
  removing_spotlighted_peer_clears_spotlight
    ⟨"r", none, [⟨"b", []⟩, ⟨"c", []⟩], some "b", false, false, none⟩ "b"
